import Mathlib

/-!
# Zulip bridge adapter (bridge/zulip/zulip.go)

A shallow embedding of the adapter's runtime: the stream directory
(`getChannel`), the topic binding (`JoinChannel`, `getTopic`), the outbound
dispatcher (`Send`, `sendMessage`, `handleUploadFile`) and the event poller
(`handleQueue`).

The Zulip client library (gozulipbot), `encoding/json` and the attachment
helper are outside the file; their answers are supplied by an environment
`Env`, each answer being allowed to depend on everything that happened before.
Every external action (API call, hand-off to the bus, sleep) is appended to the
`trace` field of the adapter state, so that "which calls, in which order" is a
statement about a list. Logging and the reader/writer lock are not modelled.
-/

namespace bzulip

/-! ## Data model -/

/-- Go `error` values seen by the adapter. The first four are the gozulipbot
sentinels `handleQueue` switches on. -/
inductive GoError where
  | BackoffError
  | NoJSONError
  | BadEventQueueError
  | HeartbeatError
  | UnauthorizedError
  | UnknownError
  | readError
  | jsonSyntaxError
  | jsonTypeError
  | other (msg : String)
  deriving DecidableEq, Repr

/-- The fields of `gzb.Queue` the adapter touches. -/
structure Queue where
  ID : String
  LastEventID : Int
  deriving DecidableEq, Repr

/-- The fields of `gzb.EventMessage` read by `handleQueue`. -/
structure EventMessage where
  ID : Int
  SenderEmail : String
  SenderFullName : String
  SenderID : Int
  AvatarURL : String
  Content : String
  StreamID : Int
  deriving DecidableEq, Repr

/-- The fields of `config.FileInfo` read by `handleUploadFile`. -/
structure FileInfo where
  Comment : String
  URL : String
  deriving DecidableEq, Repr

/-- An element of a `[]interface{}` stored in `msg.Extra`: a `config.FileInfo`
or a value of another dynamic type. -/
inductive ExtraItem where
  | fileInfo (fi : FileInfo)
  | other
  deriving DecidableEq, Repr

/-- The fields of `config.Message` set or read by the adapter. `Extra` is
`none` for a nil map; a present map is an association list. -/
structure Message where
  Text : String
  Channel : String
  Username : String
  UserID : String
  Avatar : String
  Account : String
  Event : String
  ID : String
  Extra : Option (List (String × List ExtraItem))
  deriving DecidableEq, Repr

/-- The constant `config.EventMsgDelete`. -/
def EventMsgDelete : String := "msg_delete"

/-- The service message `gzb.Message` as built by `sendMessage`. -/
structure GzbMessage where
  Stream : String
  Topic : String
  Content : String
  deriving DecidableEq, Repr

/-- One entry of `StreamJSON.Streams`. -/
structure Stream where
  StreamID : Int
  Name : String
  deriving DecidableEq, Repr

/-- A JSON value as seen by a decoder that targets a Go `int`: only integer
literals carry data. `float` is a number literal with a fraction or exponent. -/
inductive JVal where
  | null
  | bool (b : Bool)
  | int (n : Int)
  | float
  | str (s : String)
  | array
  | object
  deriving DecidableEq, Repr

/-- What `resp.Body` holds: a stream that fails to read, bytes that are not
JSON, or a JSON document (`null`, an object with its members in order, or a
document of another kind). -/
inductive RespBody where
  | unreadable
  | invalid
  | null
  | object (members : List (String × JVal))
  | other
  deriving DecidableEq, Repr

/-- A non-nil `*http.Response`. -/
structure Response where
  Body : RespBody
  deriving DecidableEq, Repr

/-- External actions of the adapter, in the order they are issued. -/
inductive Action where
  | getEvents (q : Queue)
  | registerAll
  | getRawStreams
  | postMessage (m : GzbMessage)
  | updateMessage (id : String) (content : String)
  | remote (m : Message)
  | sleep (seconds : Nat)
  deriving DecidableEq, Repr

/-- The adapter state `Bzulip`: queue pointer, stream directory, topic binding,
the configuration strings it reads, and the history of external actions. -/
structure Bzulip where
  q : Option Queue
  streams : Int → Option String
  channelToTopic : String → Option String
  login : String
  topic : String
  Account : String
  trace : List Action

/-- The collaborators outside the file. Each answer may depend on the history.
`GetEvents` is a method of the queue `b.q` points to: it is given that queue
and answers with the pair `(messages, err)` and with the value the client
leaves in the queue's `LastEventID`, which the client rewrites while it parses
the response. A call through a nil `b.q` panics inside the client and never
reaches the environment. `HandleExtra` is the attachment helper of the
`bridge/helper` package, taken as a parameter: the messages it returns for the
message it is given, which it does not modify. -/
structure Env where
  GetEvents : List Action → Queue → (List EventMessage × Option GoError) × Int
  RegisterAll : List Action → Option Queue × Option GoError
  GetRawStreams : List Action → List Stream × Option GoError
  PostMessage : List Action → GzbMessage → Option Response × Option GoError
  UpdateMessage : List Action → String → String → Option GoError
  HandleExtra : Message → List Message

/-- Result of a call that may panic; the state reached is kept either way. -/
inductive Outcome (α : Type) where
  | ok (a : α) (b : Bzulip)
  | panic (b : Bzulip)

/-- The state an outcome ends in. -/
def Outcome.state {α : Type} : Outcome α → Bzulip
  | Outcome.ok _ b => b
  | Outcome.panic b => b

/-- The value returned, when the call returned. -/
def Outcome.result {α : Type} : Outcome α → Option α
  | Outcome.ok a _ => some a
  | Outcome.panic _ => none

/-- Append one external action to the history. -/
def Bzulip.log (b : Bzulip) (a : Action) : Bzulip :=
  { b with trace := b.trace ++ [a] }

/-- The messages handed to the bus (`b.Remote <- rmsg`), in order. -/
def busMessages : List Action → List Message
  | [] => []
  | Action.remote m :: rest => m :: busMessages rest
  | _ :: rest => busMessages rest

/-! ## Topic binding -/

/-- The fields of `config.ChannelInfo` read by `JoinChannel`. -/
structure ChannelInfo where
  Name : String
  Topic : String
  deriving DecidableEq, Repr

/-- `JoinChannel`: `b.channelToTopic[channel.Name] = channel.Options.Topic`. -/
def JoinChannel (channel : ChannelInfo) (b : Bzulip) : Bzulip :=
  { b with channelToTopic := fun k =>
      if k = channel.Name then some channel.Topic else b.channelToTopic k }

/-- `getTopic`: the map lookup, the zero value `""` for a missing key. -/
def getTopic (b : Bzulip) (channel : String) : String :=
  (b.channelToTopic channel).getD ""

/-! ## Stream directory -/

/-- `getChannel`: cached name, else one `GetRawStreams` refresh. -/
def getChannel (env : Env) (id : Int) (b : Bzulip) : String × Bzulip :=
  match b.streams id with
  | some name => (name, b)
  | none =>
    let r := env.GetRawStreams b.trace
    let b1 := b.log Action.getRawStreams
    match r.2 with
    | some _ => ("", b1)
    | none =>
      let streams := r.1.foldl
        (fun m stream => fun k => if k = stream.StreamID then some stream.Name else m k) b1.streams
      let b2 : Bzulip := { b1 with streams := streams }
      match b2.streams id with
      | some name => (name, b2)
      | none => ("", b2)

/-! ## Outbound dispatcher -/

/-- Range of a 64-bit Go `int`. -/
def inIntRange (n : Int) : Bool := decide (-(2 : Int) ^ 63 ≤ n) && decide (n < (2 : Int) ^ 63)

/-- Whether `encoding/json` routes an object key to the field tagged `id`
(exact match, else case-insensitive). -/
def keyIsID (key : String) : Bool := key.toList.map Char.toLower == "id".toList

/-- `json.Unmarshal` of an object into `struct { ID int }`, member by member:
the current value of `ID` and whether a type error has been saved. A `null`
member leaves the field alone; a later member for the same field overwrites. -/
def decodeMembers : List (String × JVal) → Int → Bool → Int × Bool
  | [], id, bad => (id, bad)
  | (k, v) :: rest, id, bad =>
    if keyIsID k then
      match v with
      | JVal.int n => if inIntRange n then decodeMembers rest n bad else decodeMembers rest id true
      | JVal.null => decodeMembers rest id bad
      | _ => decodeMembers rest id true
    else decodeMembers rest id bad

/-- `ioutil.ReadAll` followed by `json.Unmarshal(res, &jr)`: the decoded
`jr.ID`, or the error. -/
def readID : RespBody → Except GoError Int
  | RespBody.unreadable => Except.error GoError.readError
  | RespBody.invalid => Except.error GoError.jsonSyntaxError
  | RespBody.null => Except.ok 0
  | RespBody.other => Except.error GoError.jsonTypeError
  | RespBody.object members =>
    let r := decodeMembers members 0 false
    if r.2 then Except.error GoError.jsonTypeError else Except.ok r.1

/-- The service message built by `sendMessage`: the topic is the hardcoded
default, overridden by the configured topic, overridden by the channel's bound
topic, each only when non-empty. -/
def zulipMessage (b : Bzulip) (msg : Message) : GzbMessage :=
  let topic := "matterbridge"
  let topic := if b.topic ≠ "" then b.topic else topic
  let res := getTopic b msg.Channel
  let topic := if res ≠ "" then res else topic
  { Stream := msg.Channel, Topic := topic, Content := msg.Username ++ msg.Text }

/-- `sendMessage`: build the service message, post it, parse the id of the
response. -/
def sendMessage (env : Env) (msg : Message) (b : Bzulip) : (String × Option GoError) × Bzulip :=
  let m := zulipMessage b msg
  let r := env.PostMessage b.trace m
  let b1 := b.log (Action.postMessage m)
  match r.2 with
  | some err => (("", some err), b1)
  | none =>
    match r.1 with
    | some resp =>
      match readID resp.Body with
      | Except.error err => (("", some err), b1)
      | Except.ok id => ((toString id, none), b1)
    | none => (("", none), b1)

/-- `msg.Extra[key]`: the slice stored under the key, nil when absent. -/
def extraGet (extra : List (String × List ExtraItem)) (key : String) : List ExtraItem :=
  (extra.lookup key).getD []

/-- The update of `msg.Text` for one attachment in `handleUploadFile`. -/
def attachmentText (text : String) (fi : FileInfo) : String :=
  let text1 := if fi.Comment ≠ "" then text ++ (fi.Comment ++ ": ") else text
  if fi.URL ≠ "" then
    (if fi.Comment ≠ "" then fi.Comment ++ ": " ++ fi.URL else fi.URL)
  else text1

/-- The loop of `handleUploadFile` over `msg.Extra["file"]`; `msg.Text` is
updated in place from one attachment to the next. The type assertion
`f.(config.FileInfo)` panics on a value of another type. -/
def uploadLoop (env : Env) : List ExtraItem → Message → Bzulip → Outcome (String × Option GoError)
  | [], _, b => Outcome.ok ("", none) b
  | ExtraItem.other :: _, _, b => Outcome.panic b
  | ExtraItem.fileInfo fi :: rest, msg, b =>
    let msg1 : Message := { msg with Text := attachmentText msg.Text fi }
    let r := sendMessage env msg1 b
    match r.1.2 with
    | some err => Outcome.ok ("", some err) r.2
    | none => uploadLoop env rest msg1 r.2

/-- `handleUploadFile`. -/
def handleUploadFile (env : Env) (msg : Message) (b : Bzulip) : Outcome (String × Option GoError) :=
  uploadLoop env (extraGet (msg.Extra.getD []) "file") msg b

/-- `Send`: delete, upload, edit or plain post, in this order. -/
def Send (env : Env) (msg : Message) (b : Bzulip) : Outcome (String × Option GoError) :=
  if msg.Event = EventMsgDelete then
    if msg.ID = "" then Outcome.ok ("", none) b
    else
      Outcome.ok ("", env.UpdateMessage b.trace msg.ID "") (b.log (Action.updateMessage msg.ID ""))
  else
    let b1 := match msg.Extra with
      | some _ => (env.HandleExtra msg).foldl (fun acc rmsg => (sendMessage env rmsg acc).2) b
      | none => b
    if msg.Extra.isSome ∧ 0 < (extraGet (msg.Extra.getD []) "file").length then
      handleUploadFile env msg b1
    else if msg.ID ≠ "" then
      Outcome.ok ("", env.UpdateMessage b1.trace msg.ID (msg.Username ++ msg.Text))
        (b1.log (Action.updateMessage msg.ID (msg.Username ++ msg.Text)))
    else
      let r := sendMessage env msg b1
      Outcome.ok r.1 r.2

/-! ## Event poller -/

/-- The body of the forwarding loop of `handleQueue` for one event: skip an
event of the adapter's own login, else resolve the channel, hand the message
to the bus and set the cursor. Assigning `b.q.LastEventID` through a nil `b.q`
panics. -/
def forwardOne (env : Env) (m : EventMessage) (b : Bzulip) : Outcome Unit :=
  if m.SenderEmail = b.login then Outcome.ok () b
  else
    let r := getChannel env m.StreamID b
    let rmsg : Message :=
      { Username := m.SenderFullName, Text := m.Content, Channel := r.1, Account := b.Account,
        UserID := toString m.SenderID, Avatar := m.AvatarURL, Event := "", ID := "",
        Extra := none }
    let b1 := r.2.log (Action.remote rmsg)
    match b1.q with
    | none => Outcome.panic b1
    | some q => Outcome.ok () { b1 with q := some { q with LastEventID := m.ID } }

/-- The forwarding loop of `handleQueue` (`for _, m := range messages`). -/
def forwardEvents (env : Env) : List EventMessage → Bzulip → Outcome Unit
  | [], b => Outcome.ok () b
  | m :: rest, b =>
    match forwardOne env m b with
    | Outcome.ok _ b1 => forwardEvents env rest b1
    | Outcome.panic b1 => Outcome.panic b1

/-- The events of a batch that were not sent by the adapter's own login. -/
def notOwn (login : String) (messages : List EventMessage) : List EventMessage :=
  messages.filter (fun m => decide (m.SenderEmail ≠ login))

/-- Forward the batch, then the idle sleep of three seconds. -/
def forwardAndThrottle (env : Env) (messages : List EventMessage) (b : Bzulip) : Outcome Unit :=
  match forwardEvents env messages b with
  | Outcome.ok _ b1 => Outcome.ok () (b1.log (Action.sleep 3))
  | Outcome.panic b1 => Outcome.panic b1

/-- One iteration of the `for` loop of `handleQueue`. `b.q.GetEvents()` runs
on the queue `b.q` points to: through a nil `b.q` it panics, otherwise the
client leaves its own value in the queue's `LastEventID` before the `switch`.
In the `BadEventQueueError` case `b.q` and `err` are both assigned from
`RegisterAll` before `err` is tested, so a failed registration leaves in `b.q`
whatever it returned and a successful one falls through to the forwarding
loop; `b.bot.Queues = nil` touches only the client. An error that is still set
after the `switch` skips the forwarding and the idle sleep. -/
def handleQueueIter (env : Env) (b : Bzulip) : Outcome Unit :=
  match b.q with
  | none => Outcome.panic b
  | some q =>
    let r := env.GetEvents b.trace q
    let b1 : Bzulip :=
      { b.log (Action.getEvents q) with q := some { q with LastEventID := r.2 } }
    match r.1.2 with
    | some GoError.BackoffError => Outcome.ok () (b1.log (Action.sleep 5))
    | some GoError.NoJSONError => Outcome.ok () (b1.log (Action.sleep 10))
    | some GoError.BadEventQueueError =>
      let reg := env.RegisterAll b1.trace
      let b2 : Bzulip := { b1.log Action.registerAll with q := reg.1 }
      match reg.2 with
      | some _ => Outcome.ok () (b2.log (Action.sleep 10))
      | none => forwardAndThrottle env r.1.1 b2
    | some _ => Outcome.ok () b1
    | none => forwardAndThrottle env r.1.1 b1

/-- The first `n` iterations of `handleQueue`; the Go loop has no exit, it
only stops by a panic. -/
def handleQueue (env : Env) : Nat → Bzulip → Outcome Unit
  | 0, b => Outcome.ok () b
  | n + 1, b =>
    match handleQueueIter env b with
    | Outcome.ok _ b1 => handleQueue env n b1
    | Outcome.panic b1 => Outcome.panic b1

/-! ## Concrete inputs -/

/-- An environment whose collaborators answer the same at every call: the
fetch leaves the cursor of the queue as it finds it, the directory fetch lists
stream 3 as "general", edits succeed, the attachment helper returns no
message. -/
def constEnv (events : List EventMessage × Option GoError) (reg : Option Queue × Option GoError)
    (post : Option Response × Option GoError) : Env :=
  { GetEvents := fun _ q => (events, q.LastEventID)
    RegisterAll := fun _ => reg
    GetRawStreams := fun _ => ([⟨3, "general"⟩], none)
    PostMessage := fun _ _ => post
    UpdateMessage := fun _ _ _ => none
    HandleExtra := fun _ => [] }

/-- A connected adapter: queue "q1" with cursor 10, login "bot@x", empty
directory, no topic bound, no default topic. -/
def b0 : Bzulip :=
  { q := some ⟨"q1", 10⟩, streams := fun _ => none, channelToTopic := fun _ => none,
    login := "bot@x", topic := "", Account := "zulip.x", trace := [] }

/-- A plain message "hi" from "<bob> " for channel "general". -/
def plainMsg : Message := ⟨"hi", "general", "<bob> ", "", "", "", "", "", none⟩

/-- A message from alice (sender id 7) with id 5 on stream 3. -/
def aliceEvent : EventMessage := ⟨5, "alice@x", "alice", 7, "http://avatar/alice", "hi", 3⟩

/-- A response whose body is the JSON object with the single member "id": 42. -/
def respID42 : Option Response × Option GoError :=
  (some ⟨RespBody.object [("id", JVal.int 42)]⟩, none)

/-- A message "look" for channel "general" with one attachment that has a URL
and no comment. -/
def uploadMsg : Message :=
  ⟨"look", "general", "<bob> ", "", "", "", "", "",
    some [("file", [ExtraItem.fileInfo ⟨"", "http://files/cat.png"⟩])]⟩

/-- The adapter `b0` with stream 3 already in the directory as "general". -/
def bGeneral : Bzulip :=
  { b0 with streams := fun k => if k = 3 then some "general" else none }

/-- An event of the adapter's own login (id 11) on stream 3. -/
def botEvent : EventMessage := ⟨11, "bot@x", "bot", 1, "", "echo", 3⟩

/-- An event of bob with id 3, below the cursor of `b0`. -/
def bobEvent : EventMessage := ⟨3, "bob@x", "bob", 8, "", "old", 3⟩

/-- Every fetch is answered with `events` and leaves `cursor` in the queue's
`LastEventID`, as the client does with the highest event id of a response. -/
def envFetch (events : List EventMessage × Option GoError) (cursor : Int) : Env :=
  { constEnv events (none, none) respID42 with GetEvents := fun _ _ => (events, cursor) }

/-- Every fetch is answered with `BadEventQueueError` and every registration
fails, returning a nil queue. -/
def envRecoverFails : Env :=
  constEnv ([], some GoError.BadEventQueueError) (none, some GoError.UnknownError) respID42

/-- Every fetch is answered with `BadEventQueueError` and every registration
succeeds with the queue "q2" whose cursor is -1. -/
def envRecoverOk : Env :=
  constEnv ([], some GoError.BadEventQueueError) (some ⟨"q2", -1⟩, none) respID42

/-! ## Stream directory: properties -/

/-- The directory after the refresh loop `b.streams[stream.StreamID] = stream.Name`. -/
theorem foldl_streams_apply (fetched : List Stream) (m : Int → Option String) (k : Int) :
    fetched.foldl
      (fun m stream => fun k => if k = stream.StreamID then some stream.Name else m k) m k
    = match fetched.reverse.find? (fun st => decide (st.StreamID = k)) with
      | some st => some st.Name
      | none => m k := by
  induction fetched generalizing m with
  | nil => simp
  | cons st rest ih =>
    simp only [List.foldl_cons, List.reverse_cons, List.find?_append, List.find?_cons,
      List.find?_nil]
    rw [ih]
    cases h : rest.reverse.find? (fun st => decide (st.StreamID = k)) with
    | some st1 => simp
    | none =>
      by_cases hk : k = st.StreamID
      · subst hk; simp
      · have hk2 : ¬ st.StreamID = k := fun h => hk h.symm
        simp [hk, hk2]

/-- An id absent from the fetched list keeps its old entry. -/
theorem foldl_streams_of_not_mem (fetched : List Stream) (m : Int → Option String) (k : Int)
    (hk : ∀ st ∈ fetched, st.StreamID ≠ k) :
    fetched.foldl
      (fun m stream => fun k => if k = stream.StreamID then some stream.Name else m k) m k
    = m k := by
  rw [foldl_streams_apply]
  have h : fetched.reverse.find? (fun st => decide (st.StreamID = k)) = none := by
    rw [List.find?_eq_none]
    intro st hst
    simpa using hk st (List.mem_reverse.mp hst)
  rw [h]

/-- With pairwise distinct ids every fetched pair is in the directory afterwards. -/
theorem foldl_streams_of_nodup (fetched : List Stream) (m : Int → Option String)
    (hnd : (fetched.map Stream.StreamID).Nodup) (st : Stream) (hst : st ∈ fetched) :
    fetched.foldl
      (fun m stream => fun k => if k = stream.StreamID then some stream.Name else m k) m
      st.StreamID
    = some st.Name := by
  induction fetched generalizing m with
  | nil => simp at hst
  | cons st0 rest ih =>
    simp only [List.map_cons, List.nodup_cons, List.mem_map, not_exists, not_and] at hnd
    simp only [List.foldl_cons]
    rcases List.mem_cons.mp hst with h | h
    · subst h
      rw [foldl_streams_of_not_mem]
      · simp
      · intro st1 hst1 heq
        exact hnd.1 st1 hst1 heq
    · exact ih _ hnd.2 h

/-- C9: `getChannel` on a cache hit returns the cached name and does nothing
else; on a miss it issues exactly one `GetRawStreams` call; when that call
fails the result is the empty string and the directory is unchanged; when it
succeeds every fetched id is mapped afterwards (to the name of its last
occurrence in the list, hence to its own name when ids are distinct), every id
mapped before is still mapped, and the result is the name now mapped to the id
or the empty string when it is still absent. -/
theorem getChannel_resolve (env : Env) (id : Int) (b : Bzulip) :
    (∀ name, b.streams id = some name → getChannel env id b = (name, b)) ∧
    (b.streams id = none →
      (getChannel env id b).2.trace = b.trace ++ [Action.getRawStreams] ∧
      ((env.GetRawStreams b.trace).2 ≠ none →
        (getChannel env id b).1 = "" ∧ (getChannel env id b).2.streams = b.streams) ∧
      ((env.GetRawStreams b.trace).2 = none →
        (∀ k, (getChannel env id b).2.streams k =
            match (env.GetRawStreams b.trace).1.reverse.find?
                (fun st => decide (st.StreamID = k)) with
            | some st => some st.Name
            | none => b.streams k) ∧
        (∀ st ∈ (env.GetRawStreams b.trace).1,
            ((getChannel env id b).2.streams st.StreamID).isSome = true) ∧
        (((env.GetRawStreams b.trace).1.map Stream.StreamID).Nodup →
            ∀ st ∈ (env.GetRawStreams b.trace).1,
              (getChannel env id b).2.streams st.StreamID = some st.Name) ∧
        (∀ k, (b.streams k).isSome = true → ((getChannel env id b).2.streams k).isSome = true) ∧
        (getChannel env id b).1 = ((getChannel env id b).2.streams id).getD "")) := by
  refine ⟨?_, ?_⟩
  · intro name h
    simp [getChannel, h]
  · intro hmiss
    cases herr : (env.GetRawStreams b.trace).2 with
    | some e =>
      refine ⟨?_, ?_, ?_⟩
      · simp [getChannel, hmiss, herr, Bzulip.log]
      · intro _
        simp [getChannel, hmiss, herr, Bzulip.log]
      · intro h; simp at h
    | none =>
      have hstreams : (getChannel env id b).2.streams =
          (env.GetRawStreams b.trace).1.foldl
            (fun m stream => fun k => if k = stream.StreamID then some stream.Name else m k)
            b.streams := by
        simp only [getChannel, hmiss, herr, Bzulip.log]
        split <;> rfl
      have htrace : (getChannel env id b).2.trace = b.trace ++ [Action.getRawStreams] := by
        simp only [getChannel, hmiss, herr, Bzulip.log]
        split <;> rfl
      have hres : (getChannel env id b).1 = ((getChannel env id b).2.streams id).getD "" := by
        rw [hstreams]
        simp only [getChannel, hmiss, herr, Bzulip.log]
        split <;> rename_i h <;> simp [h]
      refine ⟨htrace, ?_, ?_⟩
      · intro h; simp at h
      · intro _
        have hchar : ∀ k, (getChannel env id b).2.streams k =
            match (env.GetRawStreams b.trace).1.reverse.find?
                (fun st => decide (st.StreamID = k)) with
            | some st => some st.Name
            | none => b.streams k := by
          intro k
          rw [hstreams, foldl_streams_apply]
        refine ⟨hchar, ?_, ?_, ?_, hres⟩
        · intro st hst
          rw [hchar]
          cases hf : (env.GetRawStreams b.trace).1.reverse.find?
              (fun st1 => decide (st1.StreamID = st.StreamID)) with
          | some st1 => simp
          | none =>
            rw [List.find?_eq_none] at hf
            have := hf st (List.mem_reverse.mpr hst)
            simp at this
        · intro hnd st hst
          rw [hstreams]
          exact foldl_streams_of_nodup _ _ hnd st hst
        · intro k hk
          rw [hchar]
          cases hf : (env.GetRawStreams b.trace).1.reverse.find?
              (fun st1 => decide (st1.StreamID = k)) with
          | some st1 => simp
          | none => simpa using hk

/-! ## Outbound dispatcher: properties -/

/-- `sendMessage` issues the post call and nothing else. -/
theorem sendMessage_state (env : Env) (msg : Message) (b : Bzulip) :
    (sendMessage env msg b).2 = b.log (Action.postMessage (zulipMessage b msg)) := by
  simp only [sendMessage]
  split
  · rfl
  · split
    · split <;> rfl
    · rfl

/-- The topic of the service message: bound topic, else configured default,
else "matterbridge". -/
theorem zulipMessage_eq (b : Bzulip) (msg : Message) :
    zulipMessage b msg =
      { Stream := msg.Channel,
        Topic := if getTopic b msg.Channel ≠ "" then getTopic b msg.Channel
                 else if b.topic ≠ "" then b.topic else "matterbridge",
        Content := msg.Username ++ msg.Text } := by
  simp only [zulipMessage]

/-- A message without delete marker, attachments and id goes to `sendMessage`. -/
theorem Send_plain (env : Env) (msg : Message) (b : Bzulip)
    (hdel : msg.Event ≠ EventMsgDelete)
    (hatt : msg.Extra = none ∨
      (env.HandleExtra msg = [] ∧ extraGet (msg.Extra.getD []) "file" = []))
    (hid : msg.ID = "") :
    Send env msg b = Outcome.ok (sendMessage env msg b).1 (sendMessage env msg b).2 := by
  rcases hatt with h | ⟨h1, h2⟩
  · simp [Send, hdel, h, hid]
  · cases hx : msg.Extra with
    | none => simp [Send, hdel, hx, hid]
    | some extra =>
      rw [hx] at h2
      simp only [Option.getD_some] at h2
      simp [Send, hdel, hx, hid, h1, h2]

/-- C5: a plain post (no delete marker, no attachments, empty id) makes `Send`
issue exactly one post call, with Stream = the channel, Content = Username
followed by Text, and Topic = the topic bound to the channel if non-empty, else
the configured default if non-empty, else "matterbridge"; the bound topic is
the one given by the latest `JoinChannel` for that channel (joining another
channel does not change it, and a channel never joined has none). -/
theorem Send_plain_post (env : Env) (msg : Message) (b : Bzulip)
    (hdel : msg.Event ≠ EventMsgDelete)
    (hatt : msg.Extra = none ∨
      (env.HandleExtra msg = [] ∧ extraGet (msg.Extra.getD []) "file" = []))
    (hid : msg.ID = "") :
    (∃ r b1, Send env msg b = Outcome.ok r b1 ∧
      b1.trace = b.trace ++ [Action.postMessage
        { Stream := msg.Channel,
          Topic := if getTopic b msg.Channel ≠ "" then getTopic b msg.Channel
                   else if b.topic ≠ "" then b.topic else "matterbridge",
          Content := msg.Username ++ msg.Text }]) ∧
    (∀ t, ∃ r b1, Send env msg (JoinChannel ⟨msg.Channel, t⟩ b) = Outcome.ok r b1 ∧
      b1.trace = b.trace ++ [Action.postMessage
        { Stream := msg.Channel,
          Topic := if t ≠ "" then t else if b.topic ≠ "" then b.topic else "matterbridge",
          Content := msg.Username ++ msg.Text }]) ∧
    (∀ name t, name ≠ msg.Channel →
      getTopic (JoinChannel ⟨name, t⟩ b) msg.Channel = getTopic b msg.Channel) ∧
    (b.channelToTopic msg.Channel = none → getTopic b msg.Channel = "") := by
  refine ⟨?_, ?_, ?_, ?_⟩
  · refine ⟨_, _, Send_plain env msg b hdel hatt hid, ?_⟩
    rw [sendMessage_state, ← zulipMessage_eq]
    rfl
  · intro t
    refine ⟨_, _, Send_plain env msg _ hdel hatt hid, ?_⟩
    rw [sendMessage_state, zulipMessage_eq]
    have hget : getTopic (JoinChannel ⟨msg.Channel, t⟩ b) msg.Channel = t := by
      simp [getTopic, JoinChannel]
    rw [hget]
    simp [Bzulip.log, JoinChannel]
  · intro name t hne
    have hne2 : ¬ msg.Channel = name := fun h => hne h.symm
    simp [getTopic, JoinChannel, hne2]
  · intro h
    simp [getTopic, h]

/-- Witness for C5: the spec scenario, channel "general" bound to "standup". -/
theorem Send_plain_post_witness :
    ∃ r b1, Send (constEnv ([], none) (none, none) respID42) plainMsg
        (JoinChannel ⟨"general", "standup"⟩ b0) = Outcome.ok r b1 ∧
      b1.trace = [Action.postMessage
        { Stream := "general", Topic := "standup", Content := "<bob> hi" }] :=
  ((Send_plain_post (constEnv ([], none) (none, none) respID42) plainMsg b0
    (by decide) (Or.inl rfl) rfl).2.1 "standup")

/-- C7: a message carrying the delete marker never leads to a post call: with
an empty id `Send` issues no call and returns `("", nil)`; with a non-empty id
it issues exactly one edit call on that id with empty content and returns the
empty id with that call's error. -/
theorem Send_delete (env : Env) (msg : Message) (b : Bzulip)
    (hdel : msg.Event = EventMsgDelete) :
    (msg.ID = "" → Send env msg b = Outcome.ok ("", none) b) ∧
    (msg.ID ≠ "" → ∃ b1,
      Send env msg b = Outcome.ok ("", env.UpdateMessage b.trace msg.ID "") b1 ∧
      b1.trace = b.trace ++ [Action.updateMessage msg.ID ""]) := by
  refine ⟨?_, ?_⟩
  · intro hid
    simp [Send, hdel, hid]
  · intro hid
    refine ⟨b.log (Action.updateMessage msg.ID ""), ?_, rfl⟩
    simp [Send, hdel, hid]

/-- Witness for C7: a delete of message "77" that also carries text and an
attachment. -/
theorem Send_delete_witness :
    ("77" : String) ≠ "" ∧ ∃ b1,
      Send (constEnv ([], none) (none, none) respID42)
        ⟨"bye", "general", "<bob> ", "", "", "", EventMsgDelete, "77",
          some [("file", [ExtraItem.fileInfo ⟨"c", "http://u"⟩])]⟩ b0
        = Outcome.ok ("", none) b1 ∧
      b1.trace = [Action.updateMessage "77" ""] :=
  ⟨by decide,
   (Send_delete (constEnv ([], none) (none, none) respID42)
      ⟨"bye", "general", "<bob> ", "", "", "", EventMsgDelete, "77",
        some [("file", [ExtraItem.fileInfo ⟨"c", "http://u"⟩])]⟩ b0 rfl).2 (by decide)⟩

/-- Members whose key is not routed to the id field do not affect decoding. -/
theorem decodeMembers_filter (members : List (String × JVal)) (id : Int) (bad : Bool) :
    decodeMembers members id bad
      = decodeMembers (members.filter (fun kv => keyIsID kv.1)) id bad := by
  induction members generalizing id bad with
  | nil => rfl
  | cons kv rest ih =>
    obtain ⟨k, v⟩ := kv
    by_cases hk : keyIsID k = true
    · simp only [List.filter_cons, hk, if_true, decodeMembers]
      cases v <;> simp only [ih]
    · simp only [List.filter_cons, hk, decodeMembers]
      simpa using ih id bad

/-- A saved type error is never cleared. -/
theorem decodeMembers_bad_true (members : List (String × JVal)) (id : Int) :
    (decodeMembers members id true).2 = true := by
  induction members generalizing id with
  | nil => rfl
  | cons kv rest ih =>
    obtain ⟨k, v⟩ := kv
    simp only [decodeMembers]
    split
    · split
      · split <;> exact ih _
      · exact ih _
      · exact ih _
    · exact ih _

/-- A member routed to the id field whose value is neither `null` nor an
integer in range makes decoding fail. -/
theorem decodeMembers_bad_of_mem (members : List (String × JVal)) (id : Int) (bad : Bool)
    (k : String) (v : JVal) (hmem : (k, v) ∈ members) (hk : keyIsID k = true)
    (hnull : v ≠ JVal.null) (hint : ∀ n, v = JVal.int n → inIntRange n = false) :
    (decodeMembers members id bad).2 = true := by
  induction members generalizing id bad with
  | nil => simp at hmem
  | cons kv rest ih =>
    rcases List.mem_cons.mp hmem with h | h
    · subst h
      simp only [decodeMembers, hk, if_true]
      cases v with
      | int n => simp only [hint n rfl]; exact decodeMembers_bad_true _ _
      | null => exact absurd rfl hnull
      | bool x => exact decodeMembers_bad_true _ _
      | float => exact decodeMembers_bad_true _ _
      | str x => exact decodeMembers_bad_true _ _
      | array => exact decodeMembers_bad_true _ _
      | object => exact decodeMembers_bad_true _ _
    · obtain ⟨k0, v0⟩ := kv
      simp only [decodeMembers]
      split
      · split
        · split <;> exact ih _ _ h
        · exact ih _ _ h
        · exact ih _ _ h
      · exact ih _ _ h

/-- C6, as the code behaves: after a post call that succeeded, `sendMessage`
returns the decimal string of the integer id member of a JSON object body,
with a nil error, and a non-nil error for a body that cannot be read, is not
JSON, is a JSON document that is neither an object nor null, or is an object
with an id member that is neither an integer nor null; an absent response
gives `("", nil)` and an object without an id member gives `("0", nil)`. -/
theorem sendMessage_response (env : Env) (msg : Message) (b : Bzulip)
    (hpost : (env.PostMessage b.trace (zulipMessage b msg)).2 = none) :
    ((env.PostMessage b.trace (zulipMessage b msg)).1 = none →
      (sendMessage env msg b).1 = ("", none)) ∧
    (∀ members, (env.PostMessage b.trace (zulipMessage b msg)).1
        = some ⟨RespBody.object members⟩ →
      (∀ k n, members.filter (fun kv => keyIsID kv.1) = [(k, JVal.int n)] →
        inIntRange n = true → (sendMessage env msg b).1 = (toString n, none)) ∧
      (members.filter (fun kv => keyIsID kv.1) = [] →
        (sendMessage env msg b).1 = ("0", none)) ∧
      (∀ k v, (k, v) ∈ members → keyIsID k = true → v ≠ JVal.null →
        (∀ n, v = JVal.int n → inIntRange n = false) →
        ∃ err, (sendMessage env msg b).1 = ("", some err))) ∧
    (∀ resp, (env.PostMessage b.trace (zulipMessage b msg)).1 = some resp →
      resp.Body = RespBody.unreadable ∨ resp.Body = RespBody.invalid ∨
        resp.Body = RespBody.other →
      ∃ err, (sendMessage env msg b).1 = ("", some err)) := by
  refine ⟨?_, ?_, ?_⟩
  · intro h
    simp [sendMessage, hpost, h]
  · intro members h
    refine ⟨?_, ?_, ?_⟩
    · intro k n hf hn
      have hk : keyIsID k = true := by
        have hmem : (k, JVal.int n) ∈ members.filter (fun kv => keyIsID kv.1) := by
          rw [hf]; exact List.mem_singleton.mpr rfl
        exact (List.mem_filter.mp hmem).2
      have hdec : decodeMembers members 0 false = (n, false) := by
        rw [decodeMembers_filter, hf]
        simp [decodeMembers, hk, hn]
      simp [sendMessage, hpost, h, readID, hdec]
    · intro hf
      have hdec : decodeMembers members 0 false = (0, false) := by
        rw [decodeMembers_filter, hf]
        rfl
      simp only [sendMessage, hpost, h, readID, hdec]
      rfl
    · intro k v hmem hk hnull hint
      have hdec := decodeMembers_bad_of_mem members 0 false k v hmem hk hnull hint
      exact ⟨GoError.jsonTypeError, by simp [sendMessage, hpost, h, readID, hdec]⟩
  · intro resp h hbody
    rcases hbody with hb | hb | hb
    · exact ⟨GoError.readError, by simp [sendMessage, hpost, h, hb, readID]⟩
    · exact ⟨GoError.jsonSyntaxError, by simp [sendMessage, hpost, h, hb, readID]⟩
    · exact ⟨GoError.jsonTypeError, by simp [sendMessage, hpost, h, hb, readID]⟩

/-- Witness for C6: the body `{"id": 42}` gives "42". -/
theorem sendMessage_response_witness :
    (sendMessage (constEnv ([], none) (none, none) respID42) plainMsg b0).1 = ("42", none) :=
  ((sendMessage_response (constEnv ([], none) (none, none) respID42) plainMsg b0 rfl).2.1
    [("id", JVal.int 42)] rfl).1 "id" 42 (by decide) (by decide)

/-- C6 fails as stated: a post call that succeeds with no response, and one
whose body is the empty JSON object, both return a nil error. -/
theorem sendMessage_missing_id_no_error :
    (sendMessage (constEnv ([], none) (none, none) (none, none)) plainMsg b0).1 = ("", none) ∧
    (sendMessage (constEnv ([], none) (none, none) (some ⟨RespBody.object []⟩, none))
      plainMsg b0).1 = ("0", none) := by
  decide

/-- The service message depends on the state only through the default topic
and the topic binding. -/
theorem zulipMessage_congr (b1 b2 : Bzulip) (msg : Message)
    (ht : b1.topic = b2.topic) (hc : b1.channelToTopic = b2.channelToTopic) :
    zulipMessage b1 msg = zulipMessage b2 msg := by
  simp [zulipMessage, getTopic, ht, hc]

/-- Posting the messages of the attachment helper one after the other. -/
theorem foldl_sendMessage (env : Env) (msgs : List Message) (b : Bzulip) :
    (msgs.foldl (fun acc rmsg => (sendMessage env rmsg acc).2) b).trace
        = b.trace ++ msgs.map (fun rmsg => Action.postMessage (zulipMessage b rmsg)) ∧
    (msgs.foldl (fun acc rmsg => (sendMessage env rmsg acc).2) b).topic = b.topic ∧
    (msgs.foldl (fun acc rmsg => (sendMessage env rmsg acc).2) b).channelToTopic
        = b.channelToTopic := by
  induction msgs generalizing b with
  | nil => simp
  | cons m rest ih =>
    simp only [List.foldl_cons, List.map_cons]
    obtain ⟨h1, h2, h3⟩ := ih (sendMessage env m b).2
    rw [sendMessage_state] at h1 h2 h3 ⊢
    refine ⟨?_, h2, h3⟩
    rw [h1]
    have hz : ∀ rmsg, zulipMessage (b.log (Action.postMessage (zulipMessage b m))) rmsg
        = zulipMessage b rmsg := fun rmsg => zulipMessage_congr _ _ rmsg rfl rfl
    simp only [hz]; simp [Bzulip.log]

/-- A post whose call succeeds with an absent or parseable response makes
`sendMessage` return a nil error. -/
theorem sendMessage_no_error (env : Env) (msg : Message) (b : Bzulip)
    (hpost : ∀ t m, (env.PostMessage t m).2 = none ∧
      ∀ resp, (env.PostMessage t m).1 = some resp → ∃ n, readID resp.Body = Except.ok n) :
    (sendMessage env msg b).1.2 = none := by
  obtain ⟨h1, h2⟩ := hpost b.trace (zulipMessage b msg)
  simp only [sendMessage, h1]
  cases hr : (env.PostMessage b.trace (zulipMessage b msg)).1 with
  | none => rfl
  | some resp =>
    obtain ⟨n, hn⟩ := h2 resp hr
    simp [hn]

/-- The upload loop when every post succeeds: one post per attachment, in
order, each with the text accumulated so far, and the result `("", nil)`. -/
theorem uploadLoop_ok (env : Env) (files : List FileInfo) (msg : Message) (b : Bzulip)
    (hpost : ∀ t m, (env.PostMessage t m).2 = none ∧
      ∀ resp, (env.PostMessage t m).1 = some resp → ∃ n, readID resp.Body = Except.ok n) :
    ∃ b1, uploadLoop env (files.map ExtraItem.fileInfo) msg b = Outcome.ok ("", none) b1 ∧
      b1.trace = b.trace ++ (List.scanl attachmentText msg.Text files).tail.map
        (fun t => Action.postMessage (zulipMessage b { msg with Text := t })) := by
  induction files generalizing msg b with
  | nil => exact ⟨b, rfl, by simp⟩
  | cons fi rest ih =>
    obtain ⟨b1, hb1, htr⟩ := ih { msg with Text := attachmentText msg.Text fi }
      (sendMessage env { msg with Text := attachmentText msg.Text fi } b).2
    refine ⟨b1, ?_, ?_⟩
    · simp only [List.map_cons, uploadLoop, sendMessage_no_error env _ b hpost]
      exact hb1
    · rw [htr, sendMessage_state]
      have hz : ∀ m2, zulipMessage (b.log (Action.postMessage
          (zulipMessage b { msg with Text := attachmentText msg.Text fi }))) m2
          = zulipMessage b m2 := fun m2 => zulipMessage_congr _ _ m2 rfl rfl
      have hscan : ∀ (t : String) (l : List FileInfo),
          List.scanl attachmentText t l = t :: (List.scanl attachmentText t l).tail := by
        intro t l
        cases l <;> simp [List.scanl]
      have htail : (List.scanl attachmentText msg.Text (fi :: rest)).tail
          = attachmentText msg.Text fi
            :: (List.scanl attachmentText (attachmentText msg.Text fi) rest).tail := by
        rw [List.scanl_cons]
        simp only [List.singleton_append, List.tail_cons]
        exact hscan _ _
      rw [htail]
      simp only [hz]; simp [Bzulip.log]

/-- C8, as the code behaves: for a non-delete message with a non-empty list of
attachments, when every post succeeds (the call returns no error and the
response is absent or parses), `Send` first posts the messages returned by the
attachment helper, then issues exactly one post call per attachment, in list
order, and returns the empty remote id with a nil error. -/
theorem Send_upload (env : Env) (msg : Message) (b : Bzulip)
    (extra : List (String × List ExtraItem)) (files : List FileInfo)
    (hdel : msg.Event ≠ EventMsgDelete)
    (hextra : msg.Extra = some extra)
    (hfiles : extraGet extra "file" = files.map ExtraItem.fileInfo)
    (hne : files ≠ [])
    (hpost : ∀ t m, (env.PostMessage t m).2 = none ∧
      ∀ resp, (env.PostMessage t m).1 = some resp → ∃ n, readID resp.Body = Except.ok n) :
    ∃ b1, Send env msg b = Outcome.ok ("", none) b1 ∧
      b1.trace = b.trace
        ++ (env.HandleExtra msg).map (fun rmsg => Action.postMessage (zulipMessage b rmsg))
        ++ (List.scanl attachmentText msg.Text files).tail.map
            (fun t => Action.postMessage (zulipMessage b { msg with Text := t })) ∧
      (List.scanl attachmentText msg.Text files).tail.length = files.length := by
  obtain ⟨h1, h2, h3⟩ := foldl_sendMessage env (env.HandleExtra msg) b
  obtain ⟨b1, hb1, htr⟩ := uploadLoop_ok env files msg
    ((env.HandleExtra msg).foldl (fun acc rmsg => (sendMessage env rmsg acc).2) b) hpost
  have hlen : 0 < (files.map ExtraItem.fileInfo).length := by
    cases files with
    | nil => exact absurd rfl hne
    | cons f r => simp
  refine ⟨b1, ?_, ?_, ?_⟩
  · simp only [Send, hdel, if_false, hextra, Option.isSome_some, Option.getD_some, hfiles,
      true_and, hlen, if_true, handleUploadFile]
    exact hb1
  · rw [htr, h1]
    have hz : ∀ m2, zulipMessage
        ((env.HandleExtra msg).foldl (fun acc rmsg => (sendMessage env rmsg acc).2) b) m2
        = zulipMessage b m2 := fun m2 => zulipMessage_congr _ _ m2 h2 h3
    simp [hz]
  · simp [List.length_scanl]

/-- Witness for C8: one attachment with a URL, every post answered with id 42. -/
theorem Send_upload_witness :
    ∃ b1, Send (constEnv ([], none) (none, none) respID42) uploadMsg b0
        = Outcome.ok ("", none) b1 ∧
      b1.trace = [Action.postMessage
        { Stream := "general", Topic := "matterbridge",
          Content := "<bob> http://files/cat.png" }] ∧
      (List.scanl attachmentText "look" [(⟨"", "http://files/cat.png"⟩ : FileInfo)]).tail.length
        = 1 :=
  Send_upload (constEnv ([], none) (none, none) respID42) uploadMsg b0
    [("file", [ExtraItem.fileInfo ⟨"", "http://files/cat.png"⟩])]
    [⟨"", "http://files/cat.png"⟩] (by decide) rfl rfl (by decide)
    (fun _ _ => ⟨rfl, fun resp h => by
      cases h
      exact ⟨42, rfl⟩⟩)

/-- C8 fails as stated: the post of the only attachment is answered with id 42
(`sendMessage` parses "42"), yet `Send` returns the empty remote id. -/
theorem Send_upload_returns_empty_id :
    (Send (constEnv ([], none) (none, none) respID42) uploadMsg b0).result = some ("", none) ∧
    (sendMessage (constEnv ([], none) (none, none) respID42)
      { uploadMsg with Text := "http://files/cat.png" } b0).1 = ("42", none) := by
  decide

/-! ## Event poller: properties -/

/-- Bus messages of a concatenated history. -/
theorem busMessages_append (l1 l2 : List Action) :
    busMessages (l1 ++ l2) = busMessages l1 ++ busMessages l2 := by
  induction l1 with
  | nil => rfl
  | cons a rest ih => cases a <;> simp [busMessages, ih]

/-- `getChannel` touches only the directory and the history, where it adds at
most one `GetRawStreams` call. -/
theorem getChannel_fields (env : Env) (id : Int) (b : Bzulip) :
    (getChannel env id b).2.q = b.q ∧ (getChannel env id b).2.login = b.login ∧
    (getChannel env id b).2.Account = b.Account ∧
    ((getChannel env id b).2.trace = b.trace ∨
      (getChannel env id b).2.trace = b.trace ++ [Action.getRawStreams]) := by
  simp only [getChannel]
  split
  · simp
  · split
    · simp [Bzulip.log]
    · split <;> simp [Bzulip.log]

/-- An event of the adapter's own login is skipped without any effect. -/
theorem forwardOne_own (env : Env) (m : EventMessage) (b : Bzulip)
    (h : m.SenderEmail = b.login) : forwardOne env m b = Outcome.ok () b := by
  simp [forwardOne, h]

/-- An event of another sender: the message is handed to the bus after the
channel lookup, then the cursor is set to the event's id. -/
theorem forwardOne_other (env : Env) (m : EventMessage) (b : Bzulip) (q : Queue)
    (h : m.SenderEmail ≠ b.login) (hq : b.q = some q) :
    ∃ b1, forwardOne env m b = Outcome.ok () b1 ∧
      b1.q = some { q with LastEventID := m.ID } ∧ b1.login = b.login ∧
      b1.Account = b.Account ∧ b1.streams = (getChannel env m.StreamID b).2.streams ∧
      b1.trace = (getChannel env m.StreamID b).2.trace ++ [Action.remote
        { Username := m.SenderFullName, Text := m.Content,
          Channel := (getChannel env m.StreamID b).1, Account := b.Account,
          UserID := toString m.SenderID, Avatar := m.AvatarURL, Event := "", ID := "",
          Extra := none }] := by
  obtain ⟨h1, h2, h3, _⟩ := getChannel_fields env m.StreamID b
  have hq1 : (getChannel env m.StreamID b).2.q = some q := by rw [h1, hq]
  simp only [forwardOne, h, if_false, Bzulip.log, hq1]
  exact ⟨_, rfl, rfl, h2, h3, rfl, rfl⟩

/-- The loop body never changes the configured login. -/
theorem forwardOne_login (env : Env) (m : EventMessage) (b : Bzulip) :
    (forwardOne env m b).state.login = b.login := by
  obtain ⟨_, h2, _, _⟩ := getChannel_fields env m.StreamID b
  simp only [forwardOne]
  split
  · rfl
  · simp only [Bzulip.log]
    split <;> exact h2

/-- Unfolding the loop at a self-sent head. -/
theorem forwardEvents_cons_own (env : Env) (m : EventMessage) (rest : List EventMessage)
    (b : Bzulip) (h : m.SenderEmail = b.login) :
    forwardEvents env (m :: rest) b = forwardEvents env rest b := by
  simp [forwardEvents, forwardOne_own env m b h]

/-- The batch without its head when the head is self-sent, with it otherwise. -/
theorem notOwn_cons (login : String) (m : EventMessage) (rest : List EventMessage) :
    notOwn login (m :: rest)
      = if m.SenderEmail = login then notOwn login rest else m :: notOwn login rest := by
  by_cases h : m.SenderEmail = login <;> simp [notOwn, h]

/-- The loop over a concatenated batch is the loop over the first part followed
by the loop over the second. -/
theorem forwardEvents_append (env : Env) (pre post : List EventMessage) (b : Bzulip) :
    forwardEvents env (pre ++ post) b =
      match forwardEvents env pre b with
      | Outcome.ok _ b1 => forwardEvents env post b1
      | Outcome.panic b1 => Outcome.panic b1 := by
  induction pre generalizing b with
  | nil => rfl
  | cons m rest ih =>
    simp only [List.cons_append, forwardEvents]
    cases forwardOne env m b with
    | ok u b1 => exact ih b1
    | panic b1 => rfl

/-- With a queue in place the loop runs to its end; login and account are
untouched, the cursor is the id of the last forwarded event (the old cursor
when nothing was forwarded), and a batch without forwardable events changes
nothing at all. -/
theorem forwardEvents_core (env : Env) (ms : List EventMessage) (b : Bzulip) (q : Queue)
    (hq : b.q = some q) :
    ∃ b1, forwardEvents env ms b = Outcome.ok () b1 ∧ b1.login = b.login ∧
      b1.Account = b.Account ∧
      b1.q = some { q with LastEventID :=
        ((notOwn b.login ms).getLast?.map EventMessage.ID).getD q.LastEventID } ∧
      (notOwn b.login ms = [] → b1 = b) := by
  induction ms generalizing b q with
  | nil => exact ⟨b, rfl, rfl, rfl, by simpa [notOwn] using hq, fun _ => rfl⟩
  | cons m rest ih =>
    by_cases h : m.SenderEmail = b.login
    · rw [forwardEvents_cons_own env m rest b h, notOwn_cons, if_pos h]
      exact ih b q hq
    · obtain ⟨b1, hb1, hq1, hl1, ha1, _, _⟩ := forwardOne_other env m b q h hq
      obtain ⟨b2, hb2, hl2, ha2, hq2, _⟩ := ih b1 _ hq1
      refine ⟨b2, ?_, hl2.trans hl1, ha2.trans ha1, ?_, ?_⟩
      · simp only [forwardEvents, hb1]
        exact hb2
      · rw [hq2, notOwn_cons, if_neg h, hl1, List.getLast?_cons]
        cases (notOwn b.login rest).getLast? <;> simp
      · rw [notOwn_cons, if_neg h]
        intro hnil
        exact absurd hnil (List.cons_ne_nil _ _)

/-- C1: self-echo suppression. The forwarding loop behaves on a batch exactly
as on the batch with the events of the adapter's own login removed (same
messages on the bus, same final state), and a batch made only of such events
puts nothing on the bus and changes nothing. -/
theorem forwardEvents_skips_own (env : Env) (ms : List EventMessage) (b : Bzulip) :
    forwardEvents env ms b = forwardEvents env (notOwn b.login ms) b ∧
    ((∀ m ∈ ms, m.SenderEmail = b.login) → forwardEvents env ms b = Outcome.ok () b) := by
  have key : ∀ (ms : List EventMessage) (b : Bzulip),
      forwardEvents env ms b = forwardEvents env (notOwn b.login ms) b := by
    intro ms
    induction ms with
    | nil => intro b; rfl
    | cons m rest ih =>
      intro b
      by_cases h : m.SenderEmail = b.login
      · rw [forwardEvents_cons_own env m rest b h, notOwn_cons, if_pos h]
        exact ih b
      · rw [notOwn_cons, if_neg h]
        have hl := forwardOne_login env m b
        simp only [forwardEvents]
        cases hone : forwardOne env m b with
        | ok u b1 =>
          rw [hone] at hl
          simp only [Outcome.state] at hl
          rw [← hl]
          exact ih b1
        | panic b1 => rfl
  refine ⟨key ms b, ?_⟩
  intro hall
  have hnil : notOwn b.login ms = [] := by
    simp only [notOwn, List.filter_eq_nil_iff]
    intro m hm
    simpa using hall m hm
  rw [key ms b, hnil]
  rfl

/-- C3: with a queue in place, after the forwarding loop has processed a batch
the cursor is the id of the last event of the batch that was forwarded (not
self-sent), and the queue is exactly as before when no event was forwarded. -/
theorem forwardEvents_cursor (env : Env) (ms : List EventMessage) (b : Bzulip) (q : Queue)
    (hq : b.q = some q) :
    ∃ b1, forwardEvents env ms b = Outcome.ok () b1 ∧
      (∀ m, (notOwn b.login ms).getLast? = some m →
        b1.q = some { q with LastEventID := m.ID }) ∧
      (notOwn b.login ms = [] → b1.q = some q) := by
  obtain ⟨b1, hb1, _, _, hq1, hnil⟩ := forwardEvents_core env ms b q hq
  refine ⟨b1, hb1, ?_, ?_⟩
  · intro m hm
    rw [hq1, hm]
    rfl
  · intro h
    rw [hnil h]
    exact hq

/-- Witness for C3: cursor 10, batch of an event of the bot (id 11) and
alice's event (id 5): the cursor ends at 5. -/
theorem forwardEvents_cursor_witness :
    ∃ b1, forwardEvents (constEnv ([], none) (none, none) respID42)
        [⟨11, "bot@x", "bot", 1, "", "echo", 3⟩, aliceEvent] b0 = Outcome.ok () b1 ∧
      b1.q = some ⟨"q1", 5⟩ :=
  (forwardEvents_cursor (constEnv ([], none) (none, none) respID42)
    [⟨11, "bot@x", "bot", 1, "", "echo", 3⟩, aliceEvent] b0 ⟨"q1", 10⟩ rfl).elim
    fun b1 h => ⟨b1, h.1, h.2.1 aliceEvent (by decide)⟩

/-- A cache hit returns the cached name and changes nothing. -/
theorem getChannel_hit (env : Env) (id : Int) (b : Bzulip) (name : String)
    (h : b.streams id = some name) : getChannel env id b = (name, b) := by
  simp [getChannel, h]

/-- The channel lookup puts nothing on the bus. -/
theorem getChannel_bus (env : Env) (id : Int) (b : Bzulip) :
    busMessages (getChannel env id b).2.trace = busMessages b.trace := by
  obtain ⟨_, _, _, h | h⟩ := getChannel_fields env id b
  · rw [h]
  · rw [h, busMessages_append]
    simp [busMessages]

/-- With a queue in place the bus receives, after what it had received before,
one message per forwardable event, in batch order, carrying the event's sender
name, content, sender id and avatar and the adapter's account; when the
directory already maps the stream of every forwardable event, it is left
unchanged and each message carries the mapped name. -/
theorem forwardEvents_bus (env : Env) (ms : List EventMessage) (b b1 : Bzulip) (q : Queue)
    (hq : b.q = some q) (hrun : forwardEvents env ms b = Outcome.ok () b1) :
    ∃ out, busMessages b1.trace = busMessages b.trace ++ out ∧
      List.Forall₂ (fun m r => r.Username = m.SenderFullName ∧ r.Text = m.Content ∧
          r.Account = b.Account ∧ r.UserID = toString m.SenderID ∧ r.Avatar = m.AvatarURL)
        (notOwn b.login ms) out ∧
      ((∀ m ∈ notOwn b.login ms, (b.streams m.StreamID).isSome = true) →
        b1.streams = b.streams ∧
        List.Forall₂ (fun m r => b.streams m.StreamID = some r.Channel)
          (notOwn b.login ms) out) := by
  induction ms generalizing b q with
  | nil =>
    simp only [forwardEvents, Outcome.ok.injEq, true_and] at hrun
    subst hrun
    exact ⟨[], by simp, by simp [notOwn], fun _ => ⟨rfl, by simp [notOwn]⟩⟩
  | cons m rest ih =>
    by_cases h : m.SenderEmail = b.login
    · rw [forwardEvents_cons_own env m rest b h] at hrun
      rw [notOwn_cons, if_pos h]
      exact ih b q hq hrun
    · obtain ⟨b2, hb2, hq2, hl2, ha2, hs2, ht2⟩ := forwardOne_other env m b q h hq
      simp only [forwardEvents, hb2] at hrun
      obtain ⟨out, hbus, hfields, hhit⟩ := ih b2 _ hq2 hrun
      rw [hl2, ha2] at hfields
      rw [hl2] at hhit
      rw [notOwn_cons, if_neg h]
      refine ⟨(⟨m.Content, (getChannel env m.StreamID b).1, m.SenderFullName,
          toString m.SenderID, m.AvatarURL, b.Account, "", "", none⟩ : Message) :: out,
        ?_, List.Forall₂.cons ⟨rfl, rfl, rfl, rfl, rfl⟩ hfields, ?_⟩
      · rw [hbus, ht2, busMessages_append, getChannel_bus]
        simp [busMessages]
      · intro hall
        obtain ⟨name, hname⟩ := Option.isSome_iff_exists.mp (hall m (List.mem_cons_self _ _))
        have hget := getChannel_hit env m.StreamID b name hname
        rw [hget] at hs2
        simp only at hs2
        rw [hs2] at hhit
        obtain ⟨hst, hch⟩ := hhit (fun m1 hm1 => hall m1 (List.mem_cons_of_mem _ hm1))
        refine ⟨hst, List.Forall₂.cons ?_ hch⟩
        rw [hget]
        exact hname

/-- C2: with a queue in place, the forwarding loop hands to the bus, after
what the bus had received before, exactly one message per event of the batch
that is not self-sent, in batch order; each message has Username = the sender's
full name, Text = the content, Account = the adapter's account, UserID = the
decimal string of the sender's id and Avatar = the avatar URL; its Channel is
what `getChannel` answers for the event's stream id in the state the loop is in
when it reaches the event, which is the name in the directory whenever the
directory already maps the streams of the batch. -/
theorem forwardEvents_bus_order (env : Env) (ms : List EventMessage) (b : Bzulip) (q : Queue)
    (hq : b.q = some q) :
    ∃ b1 out, forwardEvents env ms b = Outcome.ok () b1 ∧
      busMessages b1.trace = busMessages b.trace ++ out ∧
      List.Forall₂ (fun m r => r.Username = m.SenderFullName ∧ r.Text = m.Content ∧
          r.Account = b.Account ∧ r.UserID = toString m.SenderID ∧ r.Avatar = m.AvatarURL)
        (notOwn b.login ms) out ∧
      (∀ pre m post, ms = pre ++ m :: post → m.SenderEmail ≠ b.login →
        ∃ b2, forwardEvents env pre b = Outcome.ok () b2 ∧
          (out[(notOwn b.login pre).length]?).map Message.Channel
            = some (getChannel env m.StreamID b2).1) ∧
      ((∀ m ∈ notOwn b.login ms, (b.streams m.StreamID).isSome = true) →
        List.Forall₂ (fun m r => b.streams m.StreamID = some r.Channel)
          (notOwn b.login ms) out) := by
  obtain ⟨b1, hrun, _, _, _, _⟩ := forwardEvents_core env ms b q hq
  obtain ⟨out, hbus, hfields, hhit⟩ := forwardEvents_bus env ms b b1 q hq hrun
  refine ⟨b1, out, hrun, hbus, hfields, ?_, fun hall => (hhit hall).2⟩
  intro pre m post hms hm
  obtain ⟨b2, hb2, hl2, _, hq2, _⟩ := forwardEvents_core env pre b q hq
  obtain ⟨out1, hbus1, hf1, _⟩ := forwardEvents_bus env pre b b2 q hq hb2
  have hm2 : m.SenderEmail ≠ b2.login := by rw [hl2]; exact hm
  obtain ⟨b3, hb3, hq3, _, _, _, ht3⟩ := forwardOne_other env m b2 _ hm2 hq2
  have hrun3 : forwardEvents env post b3 = Outcome.ok () b1 := by
    have happ := forwardEvents_append env pre (m :: post) b
    rw [← hms, hrun, hb2] at happ
    simp only [forwardEvents, hb3] at happ
    exact happ.symm
  obtain ⟨out3, hbus3, _, _⟩ := forwardEvents_bus env post b3 b1 _ hq3 hrun3
  have hout : out = out1 ++ (⟨m.Content, (getChannel env m.StreamID b2).1, m.SenderFullName,
      toString m.SenderID, m.AvatarURL, b2.Account, "", "", none⟩ : Message) :: out3 := by
    have happ : busMessages b.trace ++ out = busMessages b.trace ++ (out1 ++
        (⟨m.Content, (getChannel env m.StreamID b2).1, m.SenderFullName,
          toString m.SenderID, m.AvatarURL, b2.Account, "", "", none⟩ : Message) :: out3) := by
      rw [← hbus, hbus3, ht3, busMessages_append, getChannel_bus, hbus1]
      simp [busMessages]
    exact List.append_cancel_left happ
  refine ⟨b2, hb2, ?_⟩
  rw [hout, hf1.length_eq, List.getElem?_append_right (le_refl _)]
  simp

/-- Witness for C2: the spec scenario, preceded by an event of the bot itself:
alice's event on stream 3, mapped to "general". -/
theorem forwardEvents_bus_order_witness :
    ∃ b1 out, forwardEvents (constEnv ([], none) (none, none) respID42)
        [botEvent, aliceEvent] bGeneral = Outcome.ok () b1 ∧
      busMessages b1.trace = out ∧
      List.Forall₂ (fun m r => r.Username = m.SenderFullName ∧ r.Text = m.Content ∧
          r.Account = "zulip.x" ∧ r.UserID = toString m.SenderID ∧ r.Avatar = m.AvatarURL)
        [aliceEvent] out ∧
      List.Forall₂ (fun m r => bGeneral.streams m.StreamID = some r.Channel)
        [aliceEvent] out :=
  (forwardEvents_bus_order (constEnv ([], none) (none, none) respID42)
    [botEvent, aliceEvent] bGeneral ⟨"q1", 10⟩ rfl).elim
    fun b1 h1 => h1.elim fun out h =>
      ⟨b1, out, h.1, h.2.1, h.2.2.1, h.2.2.2.2 (by decide)⟩

/-- The loop body adds to the history at most one directory fetch and one
hand-off to the bus, whether it completes or panics. -/
theorem forwardOne_trace (env : Env) (m : EventMessage) (b : Bzulip) :
    ∃ l, (forwardOne env m b).state.trace = b.trace ++ l ∧
      ∀ a ∈ l, a = Action.getRawStreams ∨ ∃ r, a = Action.remote r := by
  by_cases h : m.SenderEmail = b.login
  · rw [forwardOne_own env m b h]
    exact ⟨[], by simp [Outcome.state], by simp⟩
  · obtain ⟨_, _, _, ht⟩ := getChannel_fields env m.StreamID b
    have hstate : ∃ r, (forwardOne env m b).state.trace
        = (getChannel env m.StreamID b).2.trace ++ [Action.remote r] := by
      simp only [forwardOne, h, if_false, Bzulip.log]
      split <;> exact ⟨_, rfl⟩
    obtain ⟨r, hr⟩ := hstate
    rcases ht with ht | ht
    · refine ⟨[Action.remote r], by rw [hr, ht], ?_⟩
      intro a ha
      exact Or.inr ⟨r, List.mem_singleton.mp ha⟩
    · refine ⟨[Action.getRawStreams, Action.remote r], by rw [hr, ht]; simp, ?_⟩
      intro a ha
      simp only [List.mem_cons, List.mem_singleton, List.mem_nil_iff, or_false] at ha
      rcases ha with ha | ha
      · exact Or.inl ha
      · exact Or.inr ⟨r, ha⟩

/-- The forwarding loop adds to the history only directory fetches and
hand-offs to the bus, whether it completes or panics. -/
theorem forwardEvents_trace (env : Env) (ms : List EventMessage) (b : Bzulip) :
    ∃ l, (forwardEvents env ms b).state.trace = b.trace ++ l ∧
      ∀ a ∈ l, a = Action.getRawStreams ∨ ∃ r, a = Action.remote r := by
  induction ms generalizing b with
  | nil => exact ⟨[], by simp [forwardEvents, Outcome.state], by simp⟩
  | cons m rest ih =>
    obtain ⟨l1, hl1, hall1⟩ := forwardOne_trace env m b
    simp only [forwardEvents]
    cases hone : forwardOne env m b with
    | ok u b1 =>
      rw [hone] at hl1
      simp only [Outcome.state] at hl1
      obtain ⟨l2, hl2, hall2⟩ := ih b1
      refine ⟨l1 ++ l2, by rw [hl2, hl1, List.append_assoc], ?_⟩
      intro a ha
      rcases List.mem_append.mp ha with ha | ha
      · exact hall1 a ha
      · exact hall2 a ha
    | panic b1 =>
      rw [hone] at hl1
      exact ⟨l1, hl1, hall1⟩

/-- Without a queue the loop cannot create one. -/
theorem forwardEvents_q_none (env : Env) (ms : List EventMessage) (b : Bzulip)
    (hq : b.q = none) : (forwardEvents env ms b).state.q = none := by
  induction ms generalizing b with
  | nil => simpa [forwardEvents, Outcome.state] using hq
  | cons m rest ih =>
    by_cases h : m.SenderEmail = b.login
    · rw [forwardEvents_cons_own env m rest b h]
      exact ih b hq
    · obtain ⟨hq1, _, _, _⟩ := getChannel_fields env m.StreamID b
      have hq2 : (getChannel env m.StreamID b).2.q = none := by rw [hq1, hq]
      simp only [forwardEvents, forwardOne, h, if_false, Bzulip.log, hq2, Outcome.state]

/-- With a queue in place, the last action of the loop is the hand-off of the
last forwardable event of the batch. -/
theorem forwardEvents_last (env : Env) (ms : List EventMessage) (b b1 : Bzulip) (q : Queue)
    (hq : b.q = some q) (hrun : forwardEvents env ms b = Outcome.ok () b1)
    (m : EventMessage) (hm : (notOwn b.login ms).getLast? = some m) :
    ∃ l ch, b1.trace = l ++ [Action.remote ⟨m.Content, ch, m.SenderFullName,
      toString m.SenderID, m.AvatarURL, b.Account, "", "", none⟩] := by
  induction ms generalizing b q with
  | nil => simp [notOwn] at hm
  | cons m0 rest ih =>
    by_cases h : m0.SenderEmail = b.login
    · rw [forwardEvents_cons_own env m0 rest b h] at hrun
      rw [notOwn_cons, if_pos h] at hm
      exact ih b q hq hrun hm
    · obtain ⟨b2, hb2, hq2, hl2, ha2, _, ht2⟩ := forwardOne_other env m0 b q h hq
      simp only [forwardEvents, hb2] at hrun
      rw [notOwn_cons, if_neg h] at hm
      cases hrest : notOwn b.login rest with
      | nil =>
        rw [hrest] at hm
        simp only [List.getLast?_singleton, Option.some.injEq] at hm
        obtain ⟨b3, hb3, _, _, _, hsame⟩ := forwardEvents_core env rest b2 _ hq2
        rw [hl2] at hsame
        have h13 : b1 = b3 := by
          rw [hrun] at hb3
          simpa using hb3
        rw [h13, hsame hrest, ht2, ← hm]
        exact ⟨_, _, rfl⟩
      | cons m1 rest1 =>
        rw [hrest, List.getLast?_cons_cons, ← hrest, ← hl2] at hm
        rw [← ha2]
        exact ih b2 _ hq2 hrun hm

/-- A fetch through a nil queue pointer panics before anything else happens. -/
theorem handleQueueIter_nil (env : Env) (b : Bzulip) (hq : b.q = none) :
    handleQueueIter env b = Outcome.panic b := by
  simp only [handleQueueIter, hq]

/-- The outcome of an iteration started with a queue in place, by fetch
result; in every case the queue first receives the cursor the client leaves. -/
theorem handleQueueIter_cases (env : Env) (b : Bzulip) (q : Queue) (hq : b.q = some q) :
    ((env.GetEvents b.trace q).1.2 = none →
      handleQueueIter env b = forwardAndThrottle env (env.GetEvents b.trace q).1.1
        { b with q := some { q with LastEventID := (env.GetEvents b.trace q).2 },
                 trace := b.trace ++ [Action.getEvents q] }) ∧
    ((env.GetEvents b.trace q).1.2 = some GoError.BadEventQueueError →
      ((env.RegisterAll (b.trace ++ [Action.getEvents q])).2 = none →
        handleQueueIter env b = forwardAndThrottle env (env.GetEvents b.trace q).1.1
          { b with q := (env.RegisterAll (b.trace ++ [Action.getEvents q])).1,
                   trace := b.trace ++ [Action.getEvents q, Action.registerAll] }) ∧
      ((env.RegisterAll (b.trace ++ [Action.getEvents q])).2 ≠ none →
        handleQueueIter env b = Outcome.ok ()
          { b with q := (env.RegisterAll (b.trace ++ [Action.getEvents q])).1,
                   trace := b.trace
                     ++ [Action.getEvents q, Action.registerAll, Action.sleep 10] })) ∧
    (∀ e, (env.GetEvents b.trace q).1.2 = some e → e ≠ GoError.BadEventQueueError →
      ∃ l, handleQueueIter env b = Outcome.ok ()
          { b with q := some { q with LastEventID := (env.GetEvents b.trace q).2 },
                   trace := b.trace ++ Action.getEvents q :: l } ∧
        (l = [] ∨ l = [Action.sleep 5] ∨ l = [Action.sleep 10])) := by
  refine ⟨?_, ?_, ?_⟩
  · intro h
    simp only [handleQueueIter, hq, h, Bzulip.log]
  · intro h
    refine ⟨?_, ?_⟩
    · intro hreg
      simp [handleQueueIter, hq, h, Bzulip.log, hreg]
    · intro hreg
      obtain ⟨e, he⟩ := Option.ne_none_iff_exists'.mp hreg
      simp [handleQueueIter, hq, h, Bzulip.log, he]
  · intro e h hne
    cases e <;> simp [handleQueueIter, hq, h, Bzulip.log] at hne ⊢

/-- Forwarding a batch and sleeping adds no fetch and no registration to the
history, whether it completes or panics. -/
theorem forwardAndThrottle_trace (env : Env) (ms : List EventMessage) (b : Bzulip) :
    ∃ l, (forwardAndThrottle env ms b).state.trace = b.trace ++ l ∧
      ∀ a ∈ l, a ≠ Action.registerAll ∧ ∀ h, a ≠ Action.getEvents h := by
  obtain ⟨l, hl, hall⟩ := forwardEvents_trace env ms b
  have hquiet : ∀ a ∈ l, a ≠ Action.registerAll ∧ ∀ h, a ≠ Action.getEvents h := by
    intro a ha
    rcases hall a ha with h | ⟨r, h⟩ <;> subst h <;> simp
  simp only [forwardAndThrottle]
  cases hrun : forwardEvents env ms b with
  | ok u b1 =>
    rw [hrun] at hl
    simp only [Outcome.state] at hl
    refine ⟨l ++ [Action.sleep 3], by simp [Outcome.state, Bzulip.log, hl], ?_⟩
    intro a ha
    rcases List.mem_append.mp ha with ha | ha
    · exact hquiet a ha
    · rw [List.mem_singleton.mp ha]
      simp
  | panic b1 =>
    rw [hrun] at hl
    exact ⟨l, hl, hquiet⟩

/-- The queue pointer after forwarding and sleeping is the one the forwarding
loop ends with. -/
theorem forwardAndThrottle_q (env : Env) (ms : List EventMessage) (b : Bzulip) :
    (forwardAndThrottle env ms b).state.q = (forwardEvents env ms b).state.q := by
  simp only [forwardAndThrottle]
  cases forwardEvents env ms b <;> rfl

/-- An iteration started with a queue in place begins with a fetch on that
queue; a registration follows it exactly when the fetch returned
`BadEventQueueError`, and then exactly once; nothing else in the iteration is
a fetch or a registration. -/
theorem handleQueueIter_first (env : Env) (b : Bzulip) (q : Queue) (hq : b.q = some q) :
    ((env.GetEvents b.trace q).1.2 ≠ some GoError.BadEventQueueError →
      ∃ rest, (handleQueueIter env b).state.trace = b.trace ++ Action.getEvents q :: rest ∧
        ∀ a ∈ rest, a ≠ Action.registerAll ∧ ∀ h, a ≠ Action.getEvents h) ∧
    ((env.GetEvents b.trace q).1.2 = some GoError.BadEventQueueError →
      ∃ rest, (handleQueueIter env b).state.trace
          = b.trace ++ Action.getEvents q :: Action.registerAll :: rest ∧
        ∀ a ∈ rest, a ≠ Action.registerAll ∧ ∀ h, a ≠ Action.getEvents h) := by
  obtain ⟨hnone, hbadc, hother⟩ := handleQueueIter_cases env b q hq
  refine ⟨?_, ?_⟩
  · intro hne
    cases herr : (env.GetEvents b.trace q).1.2 with
    | none =>
      rw [hnone herr]
      obtain ⟨l, hl, hall⟩ := forwardAndThrottle_trace env (env.GetEvents b.trace q).1.1
        { b with q := some { q with LastEventID := (env.GetEvents b.trace q).2 },
                 trace := b.trace ++ [Action.getEvents q] }
      exact ⟨l, by rw [hl]; simp, hall⟩
    | some e =>
      have hne2 : e ≠ GoError.BadEventQueueError := fun h => hne (by rw [herr, h])
      obtain ⟨l, hl, hcases⟩ := hother e herr hne2
      refine ⟨l, by rw [hl]; rfl, ?_⟩
      intro a ha
      rcases hcases with h | h | h <;> subst h <;> simp at ha <;> subst ha <;> simp
  · intro hbad
    obtain ⟨hok, hfail⟩ := hbadc hbad
    cases hreg : (env.RegisterAll (b.trace ++ [Action.getEvents q])).2 with
    | none =>
      rw [hok hreg]
      obtain ⟨l, hl, hall⟩ := forwardAndThrottle_trace env (env.GetEvents b.trace q).1.1
        { b with q := (env.RegisterAll (b.trace ++ [Action.getEvents q])).1,
                 trace := b.trace ++ [Action.getEvents q, Action.registerAll] }
      exact ⟨l, by rw [hl]; simp, hall⟩
    | some e =>
      have hne : (env.RegisterAll (b.trace ++ [Action.getEvents q])).2 ≠ none := by
        rw [hreg]; simp
      rw [hfail hne]
      refine ⟨[Action.sleep 10], by simp [Outcome.state], ?_⟩
      intro a ha
      rw [List.mem_singleton.mp ha]
      simp

/-- An iteration started with a queue in place begins with a fetch on it. -/
theorem handleQueueIter_starts (env : Env) (b : Bzulip) (q : Queue) (hq : b.q = some q) :
    ∃ rest, (handleQueueIter env b).state.trace = b.trace ++ Action.getEvents q :: rest := by
  obtain ⟨hA, hB⟩ := handleQueueIter_first env b q hq
  by_cases h : (env.GetEvents b.trace q).1.2 = some GoError.BadEventQueueError
  · obtain ⟨rest, hrest, _⟩ := hB h
    exact ⟨_, hrest⟩
  · obtain ⟨rest, hrest, _⟩ := hA h
    exact ⟨_, hrest⟩

/-- C4, as the code behaves: the cursor is not kept monotone. In one iteration
of `handleQueue` started with a queue in place, the fetch first leaves in the
cursor whatever the client writes; after that the adapter changes the cursor
only by assigning it the id of the event it has just handed to the bus,
without comparing it with the previous value, or, after a fetch that returned
`BadEventQueueError`, by replacing the queue pointer with the one `RegisterAll`
returned. So after a successful fetch the cursor is the id of the last
forwarded event of the batch, the hand-off being the last action before the
idle sleep, and the client's value when nothing was forwarded; after any other
error than `BadEventQueueError` it is the client's value and nothing reached
the bus; after `BadEventQueueError` the queue is the one `RegisterAll`
returned, its cursor set to the id of the last forwarded event if there is
one. -/
theorem handleQueueIter_cursor (env : Env) (b : Bzulip) (q : Queue) (hq : b.q = some q) :
    ((env.GetEvents b.trace q).1.2 = none →
      ∃ b1, handleQueueIter env b = Outcome.ok () b1 ∧
        (∀ m, (notOwn b.login (env.GetEvents b.trace q).1.1).getLast? = some m →
          b1.q = some { q with LastEventID := m.ID } ∧
          ∃ l ch, b1.trace = l ++ [Action.remote ⟨m.Content, ch, m.SenderFullName,
            toString m.SenderID, m.AvatarURL, b.Account, "", "", none⟩, Action.sleep 3]) ∧
        (notOwn b.login (env.GetEvents b.trace q).1.1 = [] →
          b1.q = some { q with LastEventID := (env.GetEvents b.trace q).2 } ∧
          busMessages b1.trace = busMessages b.trace)) ∧
    (∀ e, (env.GetEvents b.trace q).1.2 = some e → e ≠ GoError.BadEventQueueError →
      ∃ b1, handleQueueIter env b = Outcome.ok () b1 ∧
        b1.q = some { q with LastEventID := (env.GetEvents b.trace q).2 } ∧
        busMessages b1.trace = busMessages b.trace) ∧
    ((env.GetEvents b.trace q).1.2 = some GoError.BadEventQueueError →
      (handleQueueIter env b).state.q = (env.RegisterAll (b.trace ++ [Action.getEvents q])).1 ∨
      ∃ q2 m, env.RegisterAll (b.trace ++ [Action.getEvents q]) = (some q2, none) ∧
        (notOwn b.login (env.GetEvents b.trace q).1.1).getLast? = some m ∧
        (handleQueueIter env b).state.q = some { q2 with LastEventID := m.ID }) := by
  obtain ⟨hnone, hbadc, hother⟩ := handleQueueIter_cases env b q hq
  refine ⟨?_, ?_, ?_⟩
  · intro herr
    obtain ⟨b1, hb1, _, _, hq1, hnil⟩ := forwardEvents_core env (env.GetEvents b.trace q).1.1
      { b with q := some { q with LastEventID := (env.GetEvents b.trace q).2 },
               trace := b.trace ++ [Action.getEvents q] }
      { q with LastEventID := (env.GetEvents b.trace q).2 } rfl
    simp only at hq1 hnil
    refine ⟨b1.log (Action.sleep 3), ?_, ?_, ?_⟩
    · rw [hnone herr]
      simp only [forwardAndThrottle, hb1]
    · intro m hm
      obtain ⟨l, ch, htr⟩ := forwardEvents_last env (env.GetEvents b.trace q).1.1
        { b with q := some { q with LastEventID := (env.GetEvents b.trace q).2 },
                 trace := b.trace ++ [Action.getEvents q] } b1
        { q with LastEventID := (env.GetEvents b.trace q).2 } rfl hb1 m hm
      simp only at htr
      refine ⟨?_, l, ch, ?_⟩
      · rw [hm] at hq1
        exact hq1
      · simp [Bzulip.log, htr]
    · intro hempty
      rw [hnil hempty]
      refine ⟨rfl, ?_⟩
      simp [Bzulip.log, busMessages_append, busMessages]
  · intro e herr hne
    obtain ⟨l, hl, hcases⟩ := hother e herr hne
    refine ⟨_, hl, rfl, ?_⟩
    rcases hcases with h | h | h <;> subst h <;>
      simp [busMessages_append, busMessages]
  · intro hbad
    obtain ⟨hok, hfail⟩ := hbadc hbad
    cases hreg2 : (env.RegisterAll (b.trace ++ [Action.getEvents q])).2 with
    | some e =>
      left
      have hne : (env.RegisterAll (b.trace ++ [Action.getEvents q])).2 ≠ none := by
        rw [hreg2]; simp
      rw [hfail hne]
      rfl
    | none =>
      rw [hok hreg2, forwardAndThrottle_q]
      cases hreg1 : (env.RegisterAll (b.trace ++ [Action.getEvents q])).1 with
      | none =>
        left
        exact forwardEvents_q_none env _ _ rfl
      | some q2 =>
        obtain ⟨b1, hb1, _, _, hq1, _⟩ := forwardEvents_core env (env.GetEvents b.trace q).1.1
          { b with q := some q2,
                   trace := b.trace ++ [Action.getEvents q, Action.registerAll] } q2 rfl
        rw [hb1]
        simp only [Outcome.state]
        cases hlast : (notOwn b.login (env.GetEvents b.trace q).1.1).getLast? with
        | none =>
          left
          rw [hq1]
          simp only at hlast ⊢
          rw [hlast]
          rfl
        | some m =>
          right
          refine ⟨q2, m, Prod.ext hreg1 hreg2, rfl, ?_⟩
          rw [hq1]
          simp only at hlast ⊢
          rw [hlast]
          rfl

/-- Witness for C4: cursor 10; the fetch returns the bot's own event and
alice's event (id 5) and the client leaves 11 in the cursor; the cursor ends
at 5. -/
theorem handleQueueIter_cursor_witness :
    ∃ b1, handleQueueIter (envFetch ([botEvent, aliceEvent], none) 11) b0 = Outcome.ok () b1 ∧
      b1.q = some ⟨"q1", 5⟩ :=
  ((handleQueueIter_cursor (envFetch ([botEvent, aliceEvent], none) 11) b0 ⟨"q1", 10⟩ rfl).1
      rfl).elim
    fun b1 h => ⟨b1, h.1, (h.2.1 aliceEvent (by decide)).1⟩

/-- C4 fails as stated: with cursor 10, a successful fetch that returns bob's
event with id 3 (the client leaving 11 in the cursor) ends with the cursor at
3; and a fetch answered with `BadEventQueueError` followed by a successful
registration ends with the cursor at -1, the cursor of the new queue, with
nothing handed to the bus. -/
theorem handleQueueIter_cursor_not_monotone :
    b0.q = some ⟨"q1", 10⟩ ∧
    (handleQueueIter (envFetch ([bobEvent], none) 11) b0).state.q = some ⟨"q1", 3⟩ ∧
    (handleQueueIter envRecoverOk b0).state.q = some ⟨"q2", -1⟩ ∧
    busMessages (handleQueueIter envRecoverOk b0).state.trace = [] := by
  decide

/-- Recovery, in general: when a fetch on the queue in place returns
`BadEventQueueError`, the iteration calls `RegisterAll` exactly once, right
after the fetch, and issues no other fetch or registration. If the
registration fails, the iteration only sleeps 10 seconds and stores what
`RegisterAll` returned as the queue pointer: with a nil pointer the next
iteration panics at its fetch without any further action. If the registration
succeeds with a queue, the next iteration starts with a fetch on that new
queue. -/
theorem handleQueueIter_recovery (env : Env) (b : Bzulip) (q : Queue) (hq : b.q = some q)
    (hbad : (env.GetEvents b.trace q).1.2 = some GoError.BadEventQueueError) :
    (∃ rest, (handleQueueIter env b).state.trace
        = b.trace ++ Action.getEvents q :: Action.registerAll :: rest ∧
      ∀ a ∈ rest, a ≠ Action.registerAll ∧ ∀ h, a ≠ Action.getEvents h) ∧
    ((env.RegisterAll (b.trace ++ [Action.getEvents q])).2 ≠ none →
      ∃ b1, handleQueueIter env b = Outcome.ok () b1 ∧
        b1.trace = b.trace ++ [Action.getEvents q, Action.registerAll, Action.sleep 10] ∧
        b1.q = (env.RegisterAll (b.trace ++ [Action.getEvents q])).1 ∧
        ((env.RegisterAll (b.trace ++ [Action.getEvents q])).1 = none →
          handleQueueIter env b1 = Outcome.panic b1)) ∧
    (∀ q2, env.RegisterAll (b.trace ++ [Action.getEvents q]) = (some q2, none) →
      ∃ b1 c, handleQueueIter env b = Outcome.ok () b1 ∧
        b1.q = some { q2 with LastEventID := c } ∧
        ∃ rest, (handleQueueIter env b1).state.trace
          = b1.trace ++ Action.getEvents { q2 with LastEventID := c } :: rest) := by
  obtain ⟨_, hbadc, _⟩ := handleQueueIter_cases env b q hq
  obtain ⟨hok, hfail⟩ := hbadc hbad
  refine ⟨(handleQueueIter_first env b q hq).2 hbad, ?_, ?_⟩
  · intro hne
    refine ⟨_, hfail hne, rfl, rfl, ?_⟩
    intro hnil
    exact handleQueueIter_nil env _ hnil
  · intro q2 hreg
    have hreg1 : (env.RegisterAll (b.trace ++ [Action.getEvents q])).1 = some q2 := by
      rw [hreg]
    have hreg2 : (env.RegisterAll (b.trace ++ [Action.getEvents q])).2 = none := by
      rw [hreg]
    obtain ⟨b1, hb1, _, _, hq1, _⟩ := forwardEvents_core env (env.GetEvents b.trace q).1.1
      { b with q := (env.RegisterAll (b.trace ++ [Action.getEvents q])).1,
               trace := b.trace ++ [Action.getEvents q, Action.registerAll] } q2 hreg1
    refine ⟨b1.log (Action.sleep 3), _, ?_, hq1, ?_⟩
    · rw [hok hreg2]
      simp only [forwardAndThrottle, hb1]
    · exact handleQueueIter_starts env (b1.log (Action.sleep 3)) _ hq1

/-- C10, the defect in the code: the fetch is answered with
`BadEventQueueError` and `RegisterAll` fails, returning a nil queue. The claim
asks for another `RegisterAll` call after the 10-second sleep. The code has
already stored the nil queue in `b.q`: the first iteration ends after the
sleep, and the second iteration panics at `b.q.GetEvents()` before any other
action, so the loop never registers again. -/
theorem handleQueue_panics_after_failed_recover :
    (handleQueue envRecoverFails 1 b0).result = some () ∧
    (handleQueue envRecoverFails 1 b0).state.q = none ∧
    (handleQueue envRecoverFails 2 b0).result = none ∧
    (handleQueue envRecoverFails 2 b0).state.trace
      = [Action.getEvents ⟨"q1", 10⟩, Action.registerAll, Action.sleep 10] := by
  decide

/-! ## The scenarios of the specification, evaluated -/

/-- Inbound scenario: the bot's own event is dropped and alice's event on
stream 3, mapped to "general", reaches the bus as one message. -/
theorem scenario_inbound :
    busMessages (forwardEvents (constEnv ([], none) (none, none) respID42)
        [botEvent, aliceEvent] bGeneral).state.trace
      = [⟨"hi", "general", "alice", "7", "http://avatar/alice", "zulip.x", "", "", none⟩] := by
  decide

/-- Inbound scenario with an empty directory: the lookup of stream 3 first
refreshes the directory, then the message is handed over. -/
theorem scenario_inbound_miss :
    (forwardEvents (constEnv ([], none) (none, none) respID42)
        [botEvent, aliceEvent] b0).state.trace
      = [Action.getRawStreams,
         Action.remote
          ⟨"hi", "general", "alice", "7", "http://avatar/alice", "zulip.x", "", "", none⟩] := by
  decide

/-- Outbound scenario: a plain post to "general" bound to "standup" returns
the id "42" parsed from the response. -/
theorem scenario_outbound :
    (Send (constEnv ([], none) (none, none) respID42) plainMsg
        (JoinChannel ⟨"general", "standup"⟩ b0)).result = some ("42", none) := by
  decide

end bzulip
